import Mathlib

/-!
Verification of the FlowAgility scraper (EventosProximos repository).

This file gives a shallow embedding of the participant-count resolution
logic and the event-processing pipeline of `src/EventosProxBeta.py`
(the latest variant; `_count_participants_liveview` there is textually
identical to the one in `src/EventosProxconParticipantes.py`), together
with the legacy static-HTML counter `_count_participants_correctly`,
the text normalizer `_clean`, the LiveView readiness wait
`_wait_liveview_ready`, and the control flow of `extract_detailed_info`
and `main`.

Conventions of the embedding:
- Python strings are `List Char` (`Str`).
- A DOM element is the record of the attributes the code ever queries;
  `none` models an absent attribute (Selenium's `get_attribute` → `None`).
- A table is the list of the text of its `tr` rows; a page snapshot is
  the elements, the tables and the body text.
- `re.search` calls are implemented as left-to-right scans with the
  exact backtracking behaviour of the concrete patterns used by the
  source (`(\d+)\s*word`, `label\s*(\d+)`, `(\d{3,})`).
- Exceptions are `Except`; external effects (navigation, login) are
  oracles recorded in the event description.
-/

/-- Python strings, embedded as lists of characters. -/
abbrev Str := List Char

/-- Python `needle in haystack` (substring containment). -/
def containsSub (needle : Str) : Str → Bool
  | [] => needle.isEmpty
  | c :: rest => needle.isPrefixOf (c :: rest) || containsSub needle rest

/-- One character of Python `str.lower`, for the alphabet this scraper
meets (ASCII plus the Spanish accented capitals). -/
def toLowerCh (c : Char) : Char :=
  if 'A' ≤ c ∧ c ≤ 'Z' then Char.ofNat (c.toNat + 32)
  else if c = 'Á' then 'á'
  else if c = 'É' then 'é'
  else if c = 'Í' then 'í'
  else if c = 'Ó' then 'ó'
  else if c = 'Ú' then 'ú'
  else if c = 'Ñ' then 'ñ'
  else if c = 'Ü' then 'ü'
  else c

/-- Python `str.lower()`. -/
def lowerStr (s : Str) : Str := s.map toLowerCh

/-- Python `int` applied to a nonempty string of decimal digits. -/
def natOfDigits (l : Str) : Nat := l.foldl (fun a c => a * 10 + (c.toNat - 48)) 0

/-- Characters matched by the regex class `\s` (ASCII part). -/
def isSpaceRe (c : Char) : Bool :=
  c = ' ' || c = '\t' || c = '\n' || c = '\r' || c = '\x0b' || c = '\x0c'

/-- `re.search(r"(\d{3,})", s)`: the group of the leftmost match.  Like
the regex engine, the scan tries each position left to right; a position
matches iff the greedy digit run starting there has length at least 3,
and the group is that run.  The leftmost matching position is the start
of the first maximal digit run of length ≥ 3, so the result is that
whole run. -/
def digitRun : Str → Option Str
  | [] => none
  | c :: rest =>
    if c.isDigit ∧ 2 ≤ (rest.takeWhile Char.isDigit).length then
      some (c :: rest.takeWhile Char.isDigit)
    else digitRun rest

/-- One attempt of `re.search(r"(\d+)\s*" ++ w, s)` at the current
position: a (maximal) digit run, then `\s*`, then the literal `w`.
Backtracking `\d+` below the full run cannot succeed because the next
character would be a digit, which neither `\s` nor the word matches. -/
def tryNumAt (w : Str) (s : Str) : Option Nat :=
  let r := s.takeWhile Char.isDigit
  if r = [] then none
  else if w.isPrefixOf ((s.drop r.length).dropWhile isSpaceRe) then
    some (natOfDigits r)
  else none

/-- `re.search(r"(\d+)\s*" ++ w, body)`: leftmost match wins. -/
def searchNumWord (w : Str) : Str → Option Nat
  | [] => none
  | c :: rest =>
    match tryNumAt w (c :: rest) with
    | some n => some n
    | none => searchNumWord w rest

/-- One attempt of `re.search(label ++ r"\s*(\d+)", s)` at the current
position. -/
def tryLabelAt (label : Str) (s : Str) : Option Nat :=
  if label.isPrefixOf s then
    let r := ((s.drop label.length).dropWhile isSpaceRe).takeWhile Char.isDigit
    if r = [] then none else some (natOfDigits r)
  else none

/-- `re.search(label ++ r"\s*(\d+)", body)`: leftmost match wins. -/
def searchLabelNum (label : Str) : Str → Option Nat
  | [] => none
  | c :: rest =>
    match tryLabelAt label (c :: rest) with
    | some n => some n
    | none => searchLabelNum label rest

/-- `if lo <= n <= hi: return n` guard applied to a search result; an
out-of-bounds match makes the code fall through to the next pattern. -/
def within (lo hi : Nat) : Option Nat → Option Nat
  | some n => if lo ≤ n ∧ n ≤ hi then some n else none
  | none => none

/-- A DOM element, recording exactly the attributes the counters query.
`none` is an absent attribute. -/
structure Elem where
  phx_value_booking_id : Option Str := none
  data_phx_value_booking_id : Option Str := none
  phx_click : Option Str := none
  data_phx_click : Option Str := none
  id : Option Str := none
  className : Option Str := none
  deriving DecidableEq

/-- A page snapshot: the elements, the tables (each table the list of the
text of its rows) and the rendered body text. -/
structure Page where
  elems : List Elem := []
  tables : List (List Str) := []
  bodyText : Str := []
  deriving DecidableEq

/-- CSS `[phx-value-booking_id]`. -/
def selPhxValue (e : Elem) : Bool := e.phx_value_booking_id.isSome

/-- CSS `[data-phx-value-booking_id]`. -/
def selDataPhxValue (e : Elem) : Bool := e.data_phx_value_booking_id.isSome

/-- CSS `[phx-click="booking_details"]` (exact value). -/
def selPhxClickBooking (e : Elem) : Bool :=
  decide (e.phx_click = some "booking_details".data)

/-- CSS `[data-phx-click*=booking_details]` (substring of the value). -/
def selDataPhxClick (e : Elem) : Bool :=
  match e.data_phx_click with
  | some v => containsSub "booking_details".data v
  | none => false

/-- CSS `[id^="booking-"]`. -/
def selIdBooking (e : Elem) : Bool :=
  match e.id with
  | some v => "booking-".data.isPrefixOf v
  | none => false

/-- The five `booking_selectors` of `_count_participants_liveview`. -/
def booking_selectors : List (Elem → Bool) :=
  [selPhxValue, selDataPhxValue, selPhxClickBooking, selDataPhxClick, selIdBooking]

/-- An element matched by at least one of the five selectors. -/
def matches_any (e : Elem) : Bool := booking_selectors.any (fun sel => sel e)

/-- Python `a or b` on attribute lookups: `None` and the empty string are
both falsy. -/
def orNonempty (a : Option Str) (b : Str) : Str :=
  match a with
  | some v => if v = [] then b else v
  | none => b

/-- `el.get_attribute("phx-value-booking_id") or
el.get_attribute("data-phx-value-booking_id") or el.get_attribute("id")
or ""`. -/
def bid_of (e : Elem) : Str :=
  orNonempty e.phx_value_booking_id
    (orNonempty e.data_phx_value_booking_id (orNonempty e.id []))

/-- The identifier an element contributes to the `booking_ids` set:
the first run of 3+ digits of its booking attribute value or id. -/
def extract_id (e : Elem) : Option Str := digitRun (bid_of e)

/-- All identifiers collected by the selector loop (with repetitions,
in selector order). -/
def booking_id_list (p : Page) : List Str :=
  booking_selectors.flatMap fun sel => (p.elems.filter sel).filterMap extract_id

/-- The Python set `booking_ids` built by the identifier scan. -/
def booking_ids (p : Page) : Finset Str := (booking_id_list p).toFinset

/-- Header keywords of the liveview table fallback. -/
def keywords_live : List Str :=
  ["dorsal".data, "guía".data, "guia".data, "perro".data, "nombre".data]

/-- `any(k in header_text for k in keywords)`. -/
def headerHasKeyword (ks : List Str) (hdr : Str) : Bool :=
  ks.any fun k => containsSub k hdr

/-- Table fallback of `_count_participants_liveview`: first table with
more than one row whose header carries a keyword gives rows−1; a
keyword-less table gives rows−1 only when 5 ≤ rows ≤ 500; otherwise the
loop moves to the next table. -/
def count_table_fallback : List (List Str) → Option Nat
  | [] => none
  | t :: ts =>
    if 1 < t.length then
      if headerHasKeyword keywords_live (lowerStr (t.headD [])) then
        some (Nat.max 0 (t.length - 1))
      else if 5 ≤ t.length ∧ t.length ≤ 500 then some (t.length - 1)
      else count_table_fallback ts
    else count_table_fallback ts

/-- Free-text fallback of `_count_participants_liveview` over the
lowercased body text: the four patterns in source order, each guarded by
`0 <= n <= 2000`. -/
def count_text_fallback (body : Str) : Option Nat :=
  match within 0 2000 (searchNumWord "participante".data body) with
  | some n => some n
  | none =>
    match within 0 2000 (searchNumWord "inscrito".data body) with
    | some n => some n
    | none =>
      match within 0 2000 (searchNumWord "competidore".data body) with
      | some n => some n
      | none => within 0 2000 (searchLabelNum "total:".data body)

/-- What `_count_participants_liveview` returns once the identifier scan
came up empty: table fallback, then text fallback, then 0. -/
def cascade_fallback (p : Page) : Nat :=
  match count_table_fallback p.tables with
  | some n => n
  | none =>
    match count_text_fallback (lowerStr p.bodyText) with
    | some n => n
    | none => 0

/-- `_count_participants_liveview` (EventosProxBeta.py, lines 610–682):
deduplicated identifier scan, else the fallback cascade. -/
def count_participants_liveview (p : Page) : Nat :=
  if booking_ids p = ∅ then cascade_fallback p else (booking_ids p).card

/-- Header keywords of the legacy counter (no accent-less `guia`). -/
def keywords_legacy : List Str :=
  ["dorsal".data, "guía".data, "perro".data, "nombre".data]

/-- Legacy table scan: the FIRST table with more than one row returns
unconditionally — rows−1 on a keyword header, the full row count
otherwise. -/
def legacy_table_scan : List (List Str) → Option Nat
  | [] => none
  | t :: ts =>
    if 1 < t.length then
      if headerHasKeyword keywords_legacy (lowerStr (t.headD [])) then
        some (t.length - 1)
      else some t.length
    else legacy_table_scan ts

/-- Legacy free-text scan: five patterns, each guarded by
`1 <= count <= 200`. -/
def legacy_text_scan (body : Str) : Option Nat :=
  match within 1 200 (searchNumWord "participante".data body) with
  | some n => some n
  | none =>
    match within 1 200 (searchNumWord "inscrito".data body) with
    | some n => some n
    | none =>
      match within 1 200 (searchNumWord "competidore".data body) with
      | some n => some n
      | none =>
        match within 1 200 (searchLabelNum "total:".data body) with
        | some n => some n
        | none => within 1 200 (searchLabelNum "inscripciones:".data body)

/-- The four `[class*="…"]` substrings of the legacy counter. -/
def class_selectors : List Str :=
  ["participant".data, "competitor".data, "booking".data, "inscrito".data]

/-- Legacy class scan: first class substring with 1–200 matching
elements. -/
def legacy_class_scan : List Str → Page → Option Nat
  | [], _ => none
  | c :: cs, p =>
    let els := p.elems.filter fun e =>
      match e.className with
      | some s => containsSub c s
      | none => false
    if els ≠ [] ∧ 1 ≤ els.length ∧ els.length ≤ 200 then some els.length
    else legacy_class_scan cs p

/-- `_count_participants_correctly` (EventosProxBeta.py, lines 547–593),
the legacy static-HTML counter.  Its final empty-phrase check returns 0
exactly as the fall-through does, so both are the final 0 here. -/
def count_participants_correctly (p : Page) : Nat :=
  let detail_buttons := p.elems.filter fun e =>
    match e.phx_click with
    | some v => decide (v ≠ []) && containsSub "booking_details".data v
    | none => false
  if detail_buttons ≠ [] then detail_buttons.length
  else
    let booking_elements := p.elems.filter fun e => e.phx_value_booking_id.isSome
    if booking_elements ≠ [] then booking_elements.length
    else
      match legacy_class_scan class_selectors p with
      | some n => n
      | none =>
        match legacy_table_scan p.tables with
        | some n => n
        | none =>
          match legacy_text_scan (lowerStr p.bodyText) with
          | some n => n
          | none => 0

/-- A model of the external library call
`unicodedata.normalize("NFKC", s)`, as a per-character compatibility
mapping over a representative table (no-break space, the fi ligature,
the spacing breve — whose decomposition starts with a space — and a
circled digit).  Every image character is outside the table's domain,
which reflects the defining property of a Unicode normal form: the
library function is idempotent. -/
def nfkcChar (c : Char) : Str :=
  if c = ' ' then [' ']
  else if c = 'ﬁ' then "fi".data
  else if c = '˘' then [' ', '̆']
  else if c = '①' then ['1']
  else [c]

/-- `unicodedata.normalize("NFKC", s)` extended to strings. -/
def nfkc (s : Str) : Str := s.flatMap nfkcChar

/-- The regex class `[ \t]` of `_clean`. -/
def isWsCh (c : Char) : Bool := c = ' ' || c = '\t'

/-- `re.sub(r"[ \t]+", " ", s)`: each maximal run of spaces/tabs becomes
one space. -/
def collapse : Str → Str
  | [] => []
  | [c] => if isWsCh c then [' '] else [c]
  | c :: d :: rest =>
    if isWsCh c then
      if isWsCh d then collapse (d :: rest)
      else ' ' :: collapse (d :: rest)
    else c :: collapse (d :: rest)

/-- The character set of `s.strip(" \t\r\n-•*·:;")`. -/
def isStripCh (c : Char) : Bool :=
  c = ' ' || c = '\t' || c = '\r' || c = '\n' || c = '-' || c = '•' ||
  c = '*' || c = '·' || c = ':' || c = ';'

/-- Python `str.strip(chars)`: drop the set from the front, then from
the back. -/
def pyStrip (s : Str) : Str := List.rdropWhile isStripCh (s.dropWhile isStripCh)

/-- `_clean` (EventosProxBeta.py, lines 162–168): falsy input gives "",
otherwise NFKC-normalize, collapse space/tab runs, strip the edge
punctuation set. -/
def clean (s : Str) : Str := if s = [] then [] else pyStrip (collapse (nfkc s))

/-- The DOM facts `_wait_liveview_ready`'s poll condition reads: the
`class` attribute of the `html` element and whether any
`[data-phx-root]` element exists. -/
structure DomState where
  htmlClass : Str := []
  hasPhxRoot : Bool := false
  deriving DecidableEq

/-- The poll condition of `_wait_liveview_ready`:
`"phx-connected" in html.class or driver.find_elements("[data-phx-root]")`. -/
def liveview_hydrated (st : DomState) : Bool :=
  containsSub "phx-connected".data st.htmlClass || st.hasPhxRoot

/-- `_wait_liveview_ready` (EventosProxBeta.py, lines 597–608) over the
trace of DOM states observed at each poll within `hard_timeout`:
`WebDriverWait(...).until(...)` returns normally iff the condition holds
at some poll; the `TimeoutException` is swallowed and the function
returns `False`.  These are its only two outcomes. -/
def wait_liveview_ready (trace : List DomState) : Bool :=
  trace.any liveview_hydrated

/-- Outcome of parsing the `/info` page: the first club-like and
place-like texts that pass the source's filters (`None` when no
candidate passes). -/
structure InfoData where
  clubFound : Option Str := none
  lugarFound : Option Str := none
  deriving DecidableEq

/-- One event of the batch fed to `extract_detailed_info`, together with
the oracle describing what the external world (navigation, login,
pages) does for it.  `partNav`/`retryNav` model the fallible
navigation-and-wait steps; `outerRaise` models an exception thrown in
the part of the loop body outside the two inner try/except blocks. -/
structure EventSpec where
  id : Str := []
  nombre : Str := []
  fechas : Str := []
  organizacion : Str := []
  club : Str := []
  lugar : Str := []
  pais_bandera : Str := []
  hasInfoLink : Bool := false
  infoNav : Except Str InfoData := .ok {}
  hasPartLink : Bool := false
  partNav : Except Str Unit := .ok ()
  sessionExpired : Bool := false
  reloginOk : Bool := false
  retryNav : Except Str Unit := .ok ()
  loginPage : Page := {}
  partPage : Page := {}
  outerRaise : Option Str := none

/-- The output record of one event, restricted to the fields the claims
mention. -/
structure Record where
  id : Str
  nombre : Str
  fechas : Str
  organizacion : Str
  club : Str
  lugar : Str
  pais_bandera : Str
  numero_participantes : Nat
  participantes_info : Str
  procesado_info : Bool
  deriving DecidableEq

/-- `f"Error: {str(e)}"`. -/
def errStr (m : Str) : Str := "Error: ".data ++ m

/-- Result of the participants block, instrumented with how many
re-login attempts and how many navigations to the participants URL
were made. -/
structure PartOutcome where
  numero : Nat
  info : Str
  relogins : Nat
  navs : Nat
  deriving DecidableEq

/-- Python `str(n)` for a natural number. -/
def natStr (n : Nat) : Str := (Nat.repr n).data

/-- Lines 780–789: run the counter on the current page; a positive
count gives `"{n} participantes"`, zero gives `'Sin participantes'`. -/
def count_and_status (p : Page) : Nat × Str :=
  let n := count_participants_liveview p
  if 0 < n then (n, natStr n ++ " participantes".data)
  else (0, "Sin participantes".data)

/-- The participants block of the loop body (lines 762–794).  On a
session-expired redirect: one `_login` attempt; on its success one
retried navigation; on its failure the code falls through and counts on
the page it is on (the login page).  Any navigation error is caught by
the enclosing try and becomes an `Error:` status. -/
def participants_step (ev : EventSpec) : PartOutcome :=
  if ev.hasPartLink then
    match ev.partNav with
    | .error m => ⟨0, errStr m, 0, 1⟩
    | .ok _ =>
      if ev.sessionExpired then
        if ev.reloginOk then
          match ev.retryNav with
          | .error m => ⟨0, errStr m, 1, 2⟩
          | .ok _ =>
            ⟨(count_and_status ev.partPage).1, (count_and_status ev.partPage).2, 1, 2⟩
        else
          ⟨(count_and_status ev.loginPage).1, (count_and_status ev.loginPage).2, 1, 1⟩
      else ⟨(count_and_status ev.partPage).1, (count_and_status ev.partPage).2, 0, 1⟩
  else ⟨0, "No disponible".data, 0, 0⟩

/-- The info block of the loop body (lines 724–759): enrich club/venue
only when empty or the `N/D` placeholder; an error in the block is
caught and only leaves `info_processed` false. -/
def info_step (ev : EventSpec) : Str × Str × Bool :=
  if ev.hasInfoLink then
    match ev.infoNav with
    | .error _ => (ev.club, ev.lugar, false)
    | .ok d =>
      let club :=
        if ev.club = [] ∨ ev.club = "N/D".data then
          match d.clubFound with
          | some t => t
          | none => ev.club
        else ev.club
      let lugar :=
        if ev.lugar = [] ∨ ev.lugar = "N/D".data then
          match d.lugarFound with
          | some t => t
          | none => ev.lugar
        else ev.lugar
      (club, lugar, true)
  else (ev.club, ev.lugar, false)

/-- The loop body of `extract_detailed_info` (lines 714–800) without its
outer `except`: an `outerRaise` exception escapes as `Except.error`. -/
def process_body (ev : EventSpec) : Except Str Record :=
  match ev.outerRaise with
  | some m => .error m
  | none =>
    let i := info_step ev
    let pr := participants_step ev
    .ok { id := ev.id, nombre := ev.nombre, fechas := ev.fechas,
          organizacion := ev.organizacion, club := i.1, lugar := i.2.1,
          pais_bandera := ev.pais_bandera, numero_participantes := pr.numero,
          participantes_info := pr.info, procesado_info := i.2.2 }

/-- The `except` branch of the loop (lines 802–809): the original event,
annotated with `procesado_info = False`, count 0 and an `Error:` status,
is still appended. -/
def error_record (ev : EventSpec) (m : Str) : Record :=
  { id := ev.id, nombre := ev.nombre, fechas := ev.fechas,
    organizacion := ev.organizacion, club := ev.club, lugar := ev.lugar,
    pais_bandera := ev.pais_bandera, numero_participantes := 0,
    participantes_info := errStr m, procesado_info := false }

/-- What the loop appends for one event: the body's record, or the
error record when the body raises. -/
def record_of (ev : EventSpec) : Record :=
  match process_body ev with
  | .ok r => r
  | .error m => error_record ev m

/-- The event loop with its accumulator (`detailed_events`), appending
one record per event and continuing after errors.  No clock is read:
there is no deadline check of any kind in the loop. -/
def extract_loop : List EventSpec → List Record → List Record
  | [], acc => acc
  | ev :: rest, acc => extract_loop rest (acc ++ [record_of ev])

/-- `extract_detailed_info` restricted to its event loop. -/
def extract_detailed_info (evs : List EventSpec) : List Record :=
  extract_loop evs []

/-- `main` (lines 859–917) under `--module all`: `success` is set only
by the basic-events stage; the detailed stage is attempted when events
succeeded but its outcome never changes `success`; the process exits
`0` iff `success`. -/
def main_run (eventsOk : Bool) (evs : List EventSpec) : List Record × Nat :=
  if eventsOk then (extract_detailed_info evs, 0) else ([], 1)

/-- Two-element page for the identifier scan: one `id="booking-123"`
element, one `phx-value-booking_id="4567"` element. -/
def pageC1 : Page :=
  { elems := [{ id := some "booking-123".data },
              { phx_value_booking_id := some "4567".data }] }

/-- Success-mode event #1: its participants page has one booking
element. -/
def evC2a : EventSpec :=
  { nombre := "A".data, hasPartLink := true,
    partPage := { elems := [{ id := some "booking-111".data }] } }

/-- Error-mode event #2: the loop body raises. -/
def evC2err : EventSpec :=
  { nombre := "B".data, outerRaise := some "boom".data }

/-- Success-mode event #3: a keyword table with 3 rows (2
participants). -/
def evC2b : EventSpec :=
  { nombre := "C".data, hasPartLink := true,
    partPage := { tables := [["dorsal".data, "x".data, "y".data]] } }

/-- A poll trace on which the hydration marker never appears. -/
def traceC3 : List DomState :=
  List.replicate 100 { htmlClass := "some-class".data, hasPhxRoot := false }

/-- A page whose only content is the empty-state phrase. -/
def pageC3 : Page := { bodyText := "No hay participantes".data }

/-- Event whose participants page is the empty-state page. -/
def evC3 : EventSpec := { hasPartLink := true, partPage := pageC3 }

/-- A page whose only signal is a keyword table with 6 rows. -/
def pageC4 : Page :=
  { tables := [["Dorsal Guía Perro".data, "1 a".data, "2 b".data,
                "3 c".data, "4 d".data, "5 e".data]] }

/-- Session-expired event whose re-login fails; the current page (the
login page) carries no participant signal. -/
def evC5 : EventSpec :=
  { hasPartLink := true, sessionExpired := true, reloginOk := false,
    loginPage := {} }

/-- Session-expired event whose re-login succeeds. -/
def evC5ok : EventSpec :=
  { hasPartLink := true, sessionExpired := true, reloginOk := true,
    partPage := pageC1 }

/-- Two plain events for the batch-length counterexample. -/
def evC6a : EventSpec := { nombre := "E1".data }

/-- Second plain event for the batch-length counterexample. -/
def evC6b : EventSpec := { nombre := "E2".data }

/-- A page on which every strategy of the cascade fails. -/
def pageC7 : Page := { bodyText := "hola".data }

/-- Event whose participants page defeats the whole cascade. -/
def evC7 : EventSpec := { hasPartLink := true, partPage := pageC7 }

/-- A page whose only signal is a `booking_details` click element with
no numeric identifier anywhere. -/
def pageC8 : Page := { elems := [{ phx_click := some "booking_details".data }] }

/-- Two detail buttons, each also carrying a distinct all-digit
`phx-value-booking_id`. -/
def pageC8w : Page :=
  { elems := [{ phx_click := some "booking_details".data,
                phx_value_booking_id := some "123".data },
              { phx_click := some "booking_details".data,
                phx_value_booking_id := some "456".data }] }

/-- A booking element whose attribute value has no 3+-digit run, next to
free text the fallback can read. -/
def pageC10a : Page :=
  { elems := [{ phx_value_booking_id := some "ab12".data }],
    bodyText := "total: 4".data }

/-- Two elements whose extracted values share the digit run `777`. -/
def pageC10b : Page :=
  { elems := [{ id := some "booking-777".data },
              { phx_value_booking_id := some "777x".data }] }

lemma mem_booking_id_list {p : Page} {x : Str} :
    x ∈ booking_id_list p ↔ ∃ e ∈ p.elems, matches_any e = true ∧ extract_id e = some x := by
  unfold booking_id_list
  simp only [List.mem_flatMap, List.mem_filterMap, List.mem_filter]
  constructor
  · rintro ⟨sel, hsel, e, ⟨he, hse⟩, hex⟩
    refine ⟨e, he, ?_, hex⟩
    unfold matches_any
    exact List.any_eq_true.mpr ⟨sel, hsel, hse⟩
  · rintro ⟨e, he, hm, hex⟩
    obtain ⟨sel, hsel, hse⟩ := List.any_eq_true.mp hm
    exact ⟨sel, hsel, e, ⟨he, hse⟩, hex⟩

lemma booking_ids_eq (p : Page) :
    booking_ids p = ((p.elems.filter matches_any).filterMap extract_id).toFinset := by
  ext x
  simp only [booking_ids, List.mem_toFinset, mem_booking_id_list, List.mem_filterMap,
    List.mem_filter]
  constructor
  · rintro ⟨e, he, hm, hex⟩
    exact ⟨e, ⟨he, hm⟩, hex⟩
  · rintro ⟨e, ⟨he, hm⟩, hex⟩
    exact ⟨e, he, hm, hex⟩

lemma filterMap_length_of_all_isSome {α β : Type} {f : α → Option β} :
    ∀ {l : List α}, (∀ a ∈ l, (f a).isSome) → (l.filterMap f).length = l.length := by
  intro l
  induction l with
  | nil => intro _; rfl
  | cons a t ih =>
    intro h
    obtain ⟨b, hb⟩ := Option.isSome_iff_exists.mp (h a (by simp))
    rw [List.filterMap_cons_some hb, List.length_cons, List.length_cons,
      ih fun x hx => h x (by simp [hx])]

lemma booking_ids_card (p : Page)
    (hmatch : ∀ e ∈ p.elems, matches_any e = true)
    (hsome : ∀ e ∈ p.elems, (extract_id e).isSome)
    (hnodup : (p.elems.filterMap extract_id).Nodup) :
    (booking_ids p).card = p.elems.length := by
  rw [booking_ids_eq, List.filter_eq_self.mpr hmatch,
    List.toFinset_card_of_nodup hnodup, filterMap_length_of_all_isSome hsome]

lemma booking_ids_ne_empty (p : Page) (hne : p.elems ≠ [])
    (hmatch : ∀ e ∈ p.elems, matches_any e = true)
    (hsome : ∀ e ∈ p.elems, (extract_id e).isSome)
    (hnodup : (p.elems.filterMap extract_id).Nodup) :
    booking_ids p ≠ ∅ := by
  intro h
  have hc := booking_ids_card p hmatch hsome hnodup
  rw [h, Finset.card_empty] at hc
  exact hne (List.length_eq_zero.mp hc.symm)

lemma booking_ids_empty_of_no_match (p : Page)
    (h : ∀ e ∈ p.elems, matches_any e = false) :
    booking_ids p = ∅ := by
  rw [booking_ids_eq]
  have hf : p.elems.filter matches_any = [] :=
    List.filter_eq_nil_iff.mpr fun a ha => by simp [h a ha]
  rw [hf]
  rfl

lemma booking_ids_empty_of_extract_none (p : Page)
    (h : ∀ e ∈ p.elems, extract_id e = none) :
    booking_ids p = ∅ := by
  rw [booking_ids_eq]
  have hf : (p.elems.filter matches_any).filterMap extract_id = [] :=
    List.filterMap_eq_nil_iff.mpr fun a ha => h a (List.mem_filter.mp ha).1
  rw [hf]
  rfl

/-- C1: a participants page with N ≥ 1 elements, each matched by one of
the recognized identifier-attribute spelling variants and each yielding
an identifier, all N identifiers distinct, makes
`_count_participants_liveview` return exactly N — the identifier scan
deduplicates by identifier, and the table/text fallbacks are not even
consulted. -/
theorem liveview_counts_distinct_identifiers (p : Page)
    (hne : p.elems ≠ [])
    (hmatch : ∀ e ∈ p.elems, matches_any e = true)
    (hsome : ∀ e ∈ p.elems, (extract_id e).isSome)
    (hnodup : (p.elems.filterMap extract_id).Nodup) :
    count_participants_liveview p = p.elems.length := by
  unfold count_participants_liveview
  rw [if_neg (booking_ids_ne_empty p hne hmatch hsome hnodup),
    booking_ids_card p hmatch hsome hnodup]

/-- Witness for C1: on `pageC1` (an `id="booking-123"` element and a
`phx-value-booking_id="4567"` element) the counter returns 2. -/
theorem liveview_counts_distinct_identifiers_witness :
    count_participants_liveview pageC1 = 2 := by
  have h := liveview_counts_distinct_identifiers pageC1 (by decide) (by decide)
    (by decide) (by decide)
  exact h.trans (by decide)

lemma count_table_fallback_keyword :
    ∀ (ts1 : List (List Str)) (t : List Str) (ts2 : List (List Str)),
    (∀ u ∈ ts1, u.length ≤ 1) → 1 < t.length →
    headerHasKeyword keywords_live (lowerStr (t.headD [])) = true →
    count_table_fallback (ts1 ++ t :: ts2) = some (t.length - 1) := by
  intro ts1
  induction ts1 with
  | nil =>
    intro t ts2 _ hlen hk
    rw [List.nil_append]
    unfold count_table_fallback
    rw [if_pos hlen, if_pos hk]
    simp
  | cons u us ih =>
    intro t ts2 hshort hlen hk
    have hu : ¬ 1 < u.length := by
      have := hshort u (by simp)
      omega
    rw [List.cons_append]
    unfold count_table_fallback
    rw [if_neg hu]
    exact ih t ts2 (fun v hv => hshort v (by simp [hv])) hlen hk

/-- C4: on a page with no participant-identifier elements whose first
multi-row table has a keyword header (`dorsal`/`guía`/`perro`/`nombre`)
and H+1 rows, `_count_participants_liveview` returns H — the header row
is excluded. -/
theorem liveview_table_header_count (p : Page) (ts1 t ts2) (H : Nat)
    (hno : ∀ e ∈ p.elems, matches_any e = false)
    (htab : p.tables = ts1 ++ t :: ts2)
    (hshort : ∀ u ∈ ts1, u.length ≤ 1)
    (hlen : t.length = H + 1)
    (hH : 1 ≤ H)
    (hk : headerHasKeyword keywords_live (lowerStr (t.headD [])) = true) :
    count_participants_liveview p = H := by
  unfold count_participants_liveview cascade_fallback
  rw [if_pos (booking_ids_empty_of_no_match p hno), htab,
    count_table_fallback_keyword ts1 t ts2 hshort (by omega) hk, hlen]
  simp

/-- Witness for C4: the table with header `["Dorsal","Guía","Perro"]`
and 6 rows in total yields count 5 (the spec's scenario). -/
theorem liveview_table_header_count_witness :
    count_participants_liveview pageC4 = 5 :=
  liveview_table_header_count pageC4 []
    ["Dorsal Guía Perro".data, "1 a".data, "2 b".data, "3 c".data,
     "4 d".data, "5 e".data] [] 5
    (by decide) rfl (by decide) (by decide) (by decide) (by decide)

/-- C7: when the identifier scan, the table fallback and the free-text
fallback all fail, `_count_participants_liveview` returns 0 (it is
total, so it cannot raise, and its codomain is ℕ, so the value is
neither negative nor absent), and the orchestrator records the event
with count 0 and the `'Sin participantes'` status — indistinguishable
from an event with zero registered participants. -/
theorem cascade_miss_records_zero (p : Page)
    (h1 : booking_ids p = ∅)
    (h2 : count_table_fallback p.tables = none)
    (h3 : count_text_fallback (lowerStr p.bodyText) = none)
    (ev : EventSpec)
    (e1 : ev.hasPartLink = true) (e2 : ev.partNav = Except.ok ())
    (e3 : ev.sessionExpired = false) (e4 : ev.outerRaise = none)
    (e5 : ev.partPage = p) :
    count_participants_liveview p = 0 ∧
    (record_of ev).numero_participantes = 0 ∧
    (record_of ev).participantes_info = "Sin participantes".data := by
  have hc : count_participants_liveview p = 0 := by
    unfold count_participants_liveview cascade_fallback
    rw [if_pos h1, h2, h3]
  refine ⟨hc, ?_, ?_⟩ <;>
    simp [record_of, process_body, participants_step, count_and_status,
      e1, e2, e3, e4, e5, hc]

/-- Witness for C7: the page whose body is plain prose defeats all three
strategies; the event is recorded with count 0 and
`'Sin participantes'`. -/
theorem cascade_miss_records_zero_witness :
    count_participants_liveview pageC7 = 0 ∧
    (record_of evC7).numero_participantes = 0 ∧
    (record_of evC7).participantes_info = "Sin participantes".data :=
  cascade_miss_records_zero pageC7 (by decide) rfl (by decide) evC7
    rfl rfl rfl rfl rfl

/-- C10: the identifier scan contributes an identifier only from
elements whose attribute value or id has a run of 3+ consecutive
digits: if no element has one, the set stays empty and the counter
falls through to the table/text fallbacks; and two elements whose
values share the same first 3+-digit run merge into one identifier,
giving count 1. -/
theorem identifier_scan_requires_digit_run :
    (∀ p : Page, (∀ e ∈ p.elems, extract_id e = none) →
      booking_ids p = ∅ ∧ count_participants_liveview p = cascade_fallback p) ∧
    (∀ (p : Page) (e1 e2 : Elem) (r : Str), p.elems = [e1, e2] →
      matches_any e1 = true → matches_any e2 = true →
      extract_id e1 = some r → extract_id e2 = some r →
      booking_ids p = {r} ∧ count_participants_liveview p = 1) := by
  constructor
  · intro p h
    have hb := booking_ids_empty_of_extract_none p h
    refine ⟨hb, ?_⟩
    unfold count_participants_liveview
    rw [if_pos hb]
  · intro p e1 e2 r hp hm1 hm2 hr1 hr2
    have hfil : List.filter matches_any [e1, e2] = [e1, e2] := by
      simp [List.filter_cons, hm1, hm2]
    have hb : booking_ids p = {r} := by
      rw [booking_ids_eq, hp, hfil, List.filterMap_cons_some hr1,
        List.filterMap_cons_some hr2, List.filterMap_nil]
      ext x
      simp
    refine ⟨hb, ?_⟩
    unfold count_participants_liveview
    rw [if_neg (by rw [hb]; exact Finset.singleton_ne_empty r), hb,
      Finset.card_singleton]

/-- Witness for C10: `pageC10a` (a booking attribute `"ab12"` with no
3-digit run) leaves the set empty and defers to the fallbacks;
`pageC10b` (id `booking-777` and value `"777x"`) merges to the single
identifier `777`. -/
theorem identifier_scan_requires_digit_run_witness :
    (booking_ids pageC10a = ∅ ∧
      count_participants_liveview pageC10a = cascade_fallback pageC10a) ∧
    (booking_ids pageC10b = {"777".data} ∧
      count_participants_liveview pageC10b = 1) :=
  ⟨identifier_scan_requires_digit_run.1 pageC10a (by decide),
   identifier_scan_requires_digit_run.2 pageC10b
    { id := some "booking-777".data }
    { phx_value_booking_id := some "777x".data } "777".data
    rfl (by decide) (by decide) (by decide) (by decide)⟩

lemma extract_loop_eq (evs : List EventSpec) :
    ∀ acc, extract_loop evs acc = acc ++ evs.map record_of := by
  induction evs with
  | nil => intro acc; simp [extract_loop]
  | cons ev rest ih => intro acc; simp [extract_loop, ih]

lemma getD_map_record :
    ∀ (evs : List EventSpec) (i : Nat),
    (evs.map record_of).getD i (record_of {}) = record_of (evs.getD i {}) := by
  intro evs
  induction evs with
  | nil => intro i; simp
  | cons e t ih =>
    intro i
    cases i with
    | zero => simp
    | succ n =>
      rw [List.map_cons, List.getD_cons_succ, List.getD_cons_succ]
      exact ih n

/-- C2: the event loop of `extract_detailed_info` appends exactly one
record per event (the i-th record depends only on the i-th event, so a
failure cannot disturb its neighbours), and an exception raised while
processing an event is caught: that event is still recorded, with an
`Error:` status, count 0 and `procesado_info = False`. -/
theorem event_loop_isolates_failures (evs : List EventSpec) :
    (extract_detailed_info evs).length = evs.length ∧
    (∀ i : Nat, (extract_detailed_info evs).getD i (record_of {}) =
      record_of (evs.getD i {})) ∧
    (∀ (ev : EventSpec) (m : Str), process_body ev = Except.error m →
      (record_of ev).participantes_info = errStr m ∧
      (record_of ev).numero_participantes = 0 ∧
      (record_of ev).procesado_info = false) := by
  refine ⟨?_, ?_, ?_⟩
  · rw [extract_detailed_info, extract_loop_eq, List.nil_append, List.length_map]
  · intro i
    rw [extract_detailed_info, extract_loop_eq, List.nil_append, getD_map_record]
  · intro ev m h
    unfold record_of
    rw [h]
    exact ⟨rfl, rfl, rfl⟩

/-- Witness for C2: the batch [A, B, C] where B's processing raises
`boom` yields exactly 3 records; #2 carries `Error: boom`, while #1 and
#3 carry their own correct counts (1 and 2). -/
theorem event_loop_isolates_failures_witness :
    (extract_detailed_info [evC2a, evC2err, evC2b]).length = 3 ∧
    ((extract_detailed_info [evC2a, evC2err, evC2b]).getD 1
      (record_of {})).participantes_info = errStr "boom".data ∧
    ((extract_detailed_info [evC2a, evC2err, evC2b]).getD 0
      (record_of {})).numero_participantes = 1 ∧
    ((extract_detailed_info [evC2a, evC2err, evC2b]).getD 2
      (record_of {})).numero_participantes = 2 := by
  have h := event_loop_isolates_failures [evC2a, evC2err, evC2b]
  refine ⟨h.1, ?_, ?_, ?_⟩
  · rw [h.2.1 1]; decide
  · rw [h.2.1 0]; decide
  · rw [h.2.1 2]; decide

/-- C6 counterexample: the orchestrator consults no clock, so with a
global run deadline that had already elapsed before event #1 (k = 1 of
n = 2) the claim demands an output of 0 records, yet the loop still
yields 2 records — there is no global-deadline early stop in the code.
The run's exit code is 0 all the same. -/
theorem no_global_deadline_counterexample :
    (extract_detailed_info [evC6a, evC6b]).length = 2 ∧
    (main_run true [evC6a, evC6b]).2 = 0 := by
  exact ⟨by decide, rfl⟩

/-- C6 corrected/amended: the code has no global run deadline: every
event of the batch is processed (n records for n events) no matter how
much time has passed, and the run exits 0 whenever the basic-events
stage succeeded — the detailed stage's outcome (partial or failed) never
changes the exit code. -/
theorem no_global_deadline_processes_all (evs : List EventSpec) :
    (main_run true evs).1.length = evs.length ∧ (main_run true evs).2 = 0 := by
  constructor
  · show (extract_detailed_info evs).length = evs.length
    rw [extract_detailed_info, extract_loop_eq, List.nil_append, List.length_map]
  · rfl

lemma takeWhile_digit_nil {l : Str} (h : ∀ c ∈ l, c.isDigit = false) :
    l.takeWhile Char.isDigit = [] := by
  cases l with
  | nil => rfl
  | cons c rest =>
    exact List.takeWhile_cons_of_neg (by simp [h c (by simp)])

lemma searchNumWord_none (w : Str) :
    ∀ l : Str, (∀ c ∈ l, c.isDigit = false) → searchNumWord w l = none := by
  intro l
  induction l with
  | nil => intro _; rfl
  | cons c rest ih =>
    intro h
    have ht : tryNumAt w (c :: rest) = none := by
      unfold tryNumAt
      rw [takeWhile_digit_nil h]
      simp
    unfold searchNumWord
    rw [ht]
    exact ih fun x hx => h x (by simp [hx])

lemma searchLabelNum_none (label : Str) :
    ∀ l : Str, (∀ c ∈ l, c.isDigit = false) → searchLabelNum label l = none := by
  intro l
  induction l with
  | nil => intro _; rfl
  | cons c rest ih =>
    intro h
    have ht : tryLabelAt label (c :: rest) = none := by
      unfold tryLabelAt
      have hsub : ∀ x ∈ ((c :: rest).drop label.length).dropWhile isSpaceRe,
          x.isDigit = false := fun x hx =>
        h x (List.drop_subset _ _ (List.dropWhile_subset _ hx))
      rw [takeWhile_digit_nil hsub]
      simp
    unfold searchLabelNum
    rw [ht]
    exact ih fun x hx => h x (by simp [hx])

lemma count_text_fallback_none (body : Str)
    (h : ∀ c ∈ body, c.isDigit = false) :
    count_text_fallback body = none := by
  unfold count_text_fallback
  rw [searchNumWord_none _ body h, searchNumWord_none _ body h,
    searchNumWord_none _ body h, searchLabelNum_none _ body h]
  rfl

/-- C3 counterexample: `_wait_liveview_ready` polls only for the
hydration marker (`phx-connected` class or a `[data-phx-root]`
element); it has exactly two outcomes, `True` (hydrated) and `False`
(the swallowed `TimeoutException`).  On `traceC3` — the poll trace of a
page whose body is the empty-state phrase `No hay participantes`
(`pageC3`) but that never hydrates — it returns `False`, the timeout
outcome: the detector does not resolve an empty page to a distinct
`empty` outcome, contradicting the claim as stated. -/
theorem readiness_no_empty_outcome :
    traceC3.all (fun st => !liveview_hydrated st) = true ∧
    wait_liveview_ready traceC3 = false ∧
    containsSub "no hay participantes".data (lowerStr pageC3.bodyText) = true :=
  ⟨by decide, by decide, by decide⟩

/-- C3 corrected/amended: the readiness wait itself only times out on a
never-hydrated page (returns `False`), but the empty resolution is
implemented downstream and does not depend on the hydration marker:
`_count_participants_liveview` runs regardless of the wait's result, so
a page showing an empty-state phrase (and no participant signals)
resolves to count 0 with status `'Sin participantes'` — the empty-text
outcome does not require the marker. -/
theorem empty_page_resolves_without_hydration (p : Page)
    (trace : List DomState)
    (hnohyd : ∀ st ∈ trace, liveview_hydrated st = false)
    (_hempty : containsSub "no hay participantes".data (lowerStr p.bodyText) = true)
    (helems : p.elems = []) (htab : p.tables = [])
    (hnodig : ∀ c ∈ lowerStr p.bodyText, c.isDigit = false)
    (ev : EventSpec) (e1 : ev.hasPartLink = true)
    (e2 : ev.partNav = Except.ok ()) (e3 : ev.sessionExpired = false)
    (e4 : ev.outerRaise = none) (e5 : ev.partPage = p) :
    wait_liveview_ready trace = false ∧
    count_participants_liveview p = 0 ∧
    (record_of ev).numero_participantes = 0 ∧
    (record_of ev).participantes_info = "Sin participantes".data := by
  have hw : wait_liveview_ready trace = false := by
    unfold wait_liveview_ready
    exact List.any_eq_false.mpr fun st hst => by simp [hnohyd st hst]
  have hb : booking_ids p = ∅ :=
    booking_ids_empty_of_no_match p fun e he => by
      rw [helems] at he
      exact absurd he (List.not_mem_nil e)
  have hc : count_participants_liveview p = 0 := by
    unfold count_participants_liveview cascade_fallback
    rw [if_pos hb, htab, count_text_fallback_none _ hnodig]
    rfl
  refine ⟨hw, hc, ?_, ?_⟩ <;>
    simp [record_of, process_body, participants_step, count_and_status,
      e1, e2, e3, e4, e5, hc]

/-- Witness for C3 (amended): the concrete empty-state page `pageC3`
with the never-hydrated trace `traceC3` resolves to count 0 and
`'Sin participantes'` while the readiness wait reports `False`. -/
theorem empty_page_resolves_without_hydration_witness :
    wait_liveview_ready traceC3 = false ∧
    count_participants_liveview pageC3 = 0 ∧
    (record_of evC3).numero_participantes = 0 ∧
    (record_of evC3).participantes_info = "Sin participantes".data :=
  empty_page_resolves_without_hydration pageC3 traceC3 (by decide) (by decide)
    rfl rfl (by decide) evC3 rfl rfl rfl rfl rfl

/-- C5 counterexample: on `evC5` (session expired, re-login fails) the
code attempts the single re-login and then simply falls through to
counting on the page it is on (the login page): the event is recorded
with count 0 and status `'Sin participantes'` — not with any timed-out
status (no such status exists in this code; the recorded status does
not even contain the fragment `tim`), contradicting the claim's
"treated as timeout". -/
theorem relogin_failure_not_timeout :
    (participants_step evC5).relogins = 1 ∧
    (record_of evC5).numero_participantes = 0 ∧
    (record_of evC5).participantes_info = "Sin participantes".data ∧
    containsSub "tim".data (lowerStr (record_of evC5).participantes_info) = false :=
  ⟨by decide, by decide, by decide, by decide⟩

/-- C5 corrected/amended: after a session-expired redirect the
orchestrator attempts exactly one re-login; on success it retries the
navigation exactly once (two navigations in total); on failure it does
not re-navigate and proceeds to count on the current login page, so the
event is recorded with that page's count and status (count 0 /
`'Sin participantes'` for a signal-free login page), not with a
timed-out status. -/
theorem session_expiry_single_relogin (ev : EventSpec)
    (h1 : ev.hasPartLink = true) (h2 : ev.partNav = Except.ok ())
    (h3 : ev.sessionExpired = true) :
    (participants_step ev).relogins = 1 ∧
    (ev.reloginOk = true → (participants_step ev).navs = 2) ∧
    (ev.reloginOk = false →
      (participants_step ev).navs = 1 ∧
      (participants_step ev).numero = (count_and_status ev.loginPage).1 ∧
      (participants_step ev).info = (count_and_status ev.loginPage).2) := by
  cases hro : ev.reloginOk
  · simp [participants_step, h1, h2, h3, hro]
  · cases hrn : ev.retryNav with
    | error m => simp [participants_step, h1, h2, h3, hro, hrn]
    | ok u => simp [participants_step, h1, h2, h3, hro, hrn]

/-- Witness for C5 (amended): `evC5` (re-login fails) makes exactly one
re-login attempt and one navigation and records `'Sin participantes'`;
`evC5ok` (re-login succeeds) navigates twice. -/
theorem session_expiry_single_relogin_witness :
    (participants_step evC5).relogins = 1 ∧
    (participants_step evC5).navs = 1 ∧
    (participants_step evC5).info = (count_and_status evC5.loginPage).2 ∧
    (participants_step evC5ok).navs = 2 := by
  have ha := session_expiry_single_relogin evC5 rfl rfl rfl
  have hb := session_expiry_single_relogin evC5ok rfl rfl rfl
  exact ⟨ha.1, (ha.2.2 rfl).1, (ha.2.2 rfl).2.2, hb.2.1 rfl⟩

/-- C8 counterexample: on `pageC8` — a single element with
`phx-click="booking_details"` and no numeric identifier anywhere — the
legacy counter returns 1 (it counts detail buttons without requiring an
identifier) while the liveview counter returns 0 (its scan needs a
3+-digit run, and the page has no table or text signal): the two
counters are not behaviorally equivalent. -/
theorem legacy_liveview_divergence :
    count_participants_correctly pageC8 = 1 ∧
    count_participants_liveview pageC8 = 0 ∧
    count_participants_correctly pageC8 ≠ count_participants_liveview pageC8 :=
  ⟨by decide, by decide, by decide⟩

/-- C8 corrected/amended: the later counter is not a behavioral
refinement of the legacy one (see the divergence counterexample); the
agreement that does hold is on pages every element of which is a
`booking_details` detail button that also carries a
`phx-value-booking_id`, with all extracted 3+-digit identifiers
distinct: there both counters return the number of elements. -/
theorem legacy_liveview_agreement (p : Page)
    (hne : p.elems ≠ [])
    (hclick : ∀ e ∈ p.elems, ∃ v, e.phx_click = some v ∧ v ≠ [] ∧
      containsSub "booking_details".data v = true)
    (hmatch : ∀ e ∈ p.elems, matches_any e = true)
    (hsome : ∀ e ∈ p.elems, (extract_id e).isSome)
    (hnodup : (p.elems.filterMap extract_id).Nodup) :
    count_participants_correctly p = count_participants_liveview p ∧
    count_participants_correctly p = p.elems.length := by
  have hlive : count_participants_liveview p = p.elems.length := by
    unfold count_participants_liveview
    rw [if_neg (booking_ids_ne_empty p hne hmatch hsome hnodup),
      booking_ids_card p hmatch hsome hnodup]
  have hfil : p.elems.filter (fun e =>
      match e.phx_click with
      | some v => decide (v ≠ []) && containsSub "booking_details".data v
      | none => false) = p.elems :=
    List.filter_eq_self.mpr (by
      intro a ha
      obtain ⟨v, hv, hvne, hcont⟩ := hclick a ha
      rw [hv]
      simp [hvne, hcont])
  have hleg : count_participants_correctly p = p.elems.length := by
    unfold count_participants_correctly
    rw [hfil, if_pos hne]
  exact ⟨hleg.trans hlive.symm, hleg⟩

/-- Witness for C8 (amended): on `pageC8w` (two detail buttons with the
distinct identifiers 123 and 456) both counters return 2. -/
theorem legacy_liveview_agreement_witness :
    count_participants_correctly pageC8w = count_participants_liveview pageC8w ∧
    count_participants_correctly pageC8w = 2 := by
  have h := legacy_liveview_agreement pageC8w (by decide)
    (by
      intro e he
      rcases List.mem_cons.mp he with rfl | he2
      · exact ⟨"booking_details".data, rfl, by decide, by decide⟩
      · rcases List.mem_cons.mp he2 with rfl | h3
        · exact ⟨"booking_details".data, rfl, by decide, by decide⟩
        · exact absurd h3 (List.not_mem_nil e))
    (by decide) (by decide) (by decide)
  exact ⟨h.1, h.2.trans (by decide)⟩


/-- Adjacent characters are not both space/tab — the shape of
`re.sub(r"[ \t]+", " ", ·)` output. -/
def noWsPair (a b : Char) : Prop := isWsCh a = false ∨ isWsCh b = false

lemma isWsCh_cases {a : Char} (h : isWsCh a = true) : a = ' ' ∨ a = '\t' := by
  unfold isWsCh at h
  simp only [Bool.or_eq_true, decide_eq_true_eq] at h
  exact h

lemma nfkcChar_image_fixed (c d : Char) (hd : d ∈ nfkcChar c) :
    nfkcChar d = [d] := by
  unfold nfkcChar at hd
  split at hd
  · simp only [List.mem_singleton] at hd
    subst hd; decide
  · split at hd
    · have hfi : d = 'f' ∨ d = 'i' := by simpa using hd
      rcases hfi with h | h <;> (subst h; decide)
    · split at hd
      · have hbr : d = ' ' ∨ d = '̆' := by simpa using hd
        rcases hbr with h | h <;> (subst h; decide)
      · split at hd
        · simp only [List.mem_singleton] at hd
          subst hd; decide
        · simp only [List.mem_singleton] at hd
          subst hd
          rename_i h1 h2 h3 h4
          unfold nfkcChar
          rw [if_neg h1, if_neg h2, if_neg h3, if_neg h4]

lemma flatMap_fixed {f : Char → Str} :
    ∀ l : Str, (∀ c ∈ l, f c = [c]) → l.flatMap f = l := by
  intro l
  induction l with
  | nil => intro _; rfl
  | cons a t ih =>
    intro h
    rw [List.flatMap_cons, h a (by simp), ih fun c hc => h c (by simp [hc])]
    rfl

lemma mem_nfkc_fixed (s : Str) (c : Char) (hc : c ∈ nfkc s) :
    nfkcChar c = [c] := by
  unfold nfkc at hc
  rw [List.mem_flatMap] at hc
  obtain ⟨a, _, hca⟩ := hc
  exact nfkcChar_image_fixed a c hca

lemma collapse_cons_of_not_ws (d : Char) (rest : Str) (hd : isWsCh d = false) :
    collapse (d :: rest) = d :: collapse rest := by
  cases rest with
  | nil => simp [collapse, hd]
  | cons r rs => simp [collapse, hd]

lemma mem_collapse :
    ∀ l : Str, ∀ c ∈ collapse l, c = ' ' ∨ (c ∈ l ∧ isWsCh c = false) := by
  intro l
  induction l with
  | nil => intro c hc; exact absurd hc (List.not_mem_nil c)
  | cons a rest ih =>
    intro c hc
    cases rest with
    | nil =>
      by_cases ha : isWsCh a
      · rw [show collapse [a] = [' '] by simp [collapse, ha]] at hc
        simp only [List.mem_singleton] at hc
        exact Or.inl hc
      · rw [show collapse [a] = [a] by simp [collapse, ha]] at hc
        simp only [List.mem_singleton] at hc
        subst hc
        exact Or.inr ⟨by simp, by simpa using ha⟩
    | cons d rs =>
      by_cases ha : isWsCh a
      · by_cases hd : isWsCh d
        · rw [show collapse (a :: d :: rs) = collapse (d :: rs) by
            simp [collapse, ha, hd]] at hc
          rcases ih c hc with h | ⟨h1, h2⟩
          · exact Or.inl h
          · exact Or.inr ⟨List.mem_cons_of_mem a h1, h2⟩
        · rw [show collapse (a :: d :: rs) = ' ' :: collapse (d :: rs) by
            simp [collapse, ha, hd]] at hc
          rcases List.mem_cons.mp hc with h | h
          · exact Or.inl h
          · rcases ih c h with h2 | ⟨h1, h2⟩
            · exact Or.inl h2
            · exact Or.inr ⟨List.mem_cons_of_mem a h1, h2⟩
      · rw [show collapse (a :: d :: rs) = a :: collapse (d :: rs) by
          simp [collapse, ha]] at hc
        rcases List.mem_cons.mp hc with h | h
        · subst h
          exact Or.inr ⟨List.mem_cons_self c _, by simpa using ha⟩
        · rcases ih c h with h2 | ⟨h1, h2⟩
          · exact Or.inl h2
          · exact Or.inr ⟨List.mem_cons_of_mem a h1, h2⟩

lemma chain'_collapse : ∀ l : Str, (collapse l).Chain' noWsPair := by
  intro l
  induction l with
  | nil => simp [collapse]
  | cons a rest ih =>
    cases rest with
    | nil =>
      by_cases ha : isWsCh a <;> simp [collapse, ha]
    | cons d rs =>
      by_cases ha : isWsCh a
      · by_cases hd : isWsCh d
        · rw [show collapse (a :: d :: rs) = collapse (d :: rs) by
            simp [collapse, ha, hd]]
          exact ih
        · rw [show collapse (a :: d :: rs) = ' ' :: collapse (d :: rs) by
            simp [collapse, ha, hd]]
          rw [List.chain'_cons']
          refine ⟨?_, ih⟩
          intro y hy
          rw [collapse_cons_of_not_ws d rs (by simpa using hd)] at hy
          simp only [List.head?_cons, Option.mem_def, Option.some.injEq] at hy
          subst hy
          exact Or.inr (by simpa using hd)
      · rw [show collapse (a :: d :: rs) = a :: collapse (d :: rs) by
          simp [collapse, ha]]
        rw [List.chain'_cons']
        exact ⟨fun y _ => Or.inl (by simpa using ha), ih⟩

lemma collapse_fixed :
    ∀ l : Str, (∀ c ∈ l, c ≠ '\t') → l.Chain' noWsPair → collapse l = l := by
  intro l
  induction l with
  | nil => intro _ _; rfl
  | cons a rest ih =>
    intro hnt hch
    cases rest with
    | nil =>
      by_cases ha : isWsCh a
      · have ha' : a = ' ' := (isWsCh_cases ha).resolve_right (hnt a (by simp))
        rw [show collapse [a] = [' '] by simp [collapse, ha], ha']
      · simp [collapse, ha]
    | cons d rs =>
      have hch1 : noWsPair a d := (List.chain'_cons.mp hch).1
      have hch2 : (d :: rs).Chain' noWsPair := (List.chain'_cons.mp hch).2
      have hnt2 : ∀ c ∈ d :: rs, c ≠ '\t' := fun c hc => hnt c (by simp [hc])
      by_cases ha : isWsCh a
      · have ha' : a = ' ' := (isWsCh_cases ha).resolve_right (hnt a (by simp))
        have hd : isWsCh d = false := by
          rcases hch1 with h | h
          · rw [ha] at h
            exact absurd h (by simp)
          · exact h
        rw [show collapse (a :: d :: rs) = ' ' :: collapse (d :: rs) by
          simp [collapse, ha, hd], ih hnt2 hch2, ha']
      · rw [show collapse (a :: d :: rs) = a :: collapse (d :: rs) by
          simp [collapse, ha], ih hnt2 hch2]

lemma rdrop_decomp (p : Char → Bool) (z : Str) :
    ∃ u, z = List.rdropWhile p z ++ u := by
  obtain ⟨t, ht⟩ := List.dropWhile_suffix (l := z.reverse) p
  refine ⟨t.reverse, ?_⟩
  rw [List.rdropWhile]
  have h2 := congrArg List.reverse ht
  rw [List.reverse_append, List.reverse_reverse] at h2
  exact h2.symm

lemma pyStrip_decomp (s : Str) :
    ∃ u, s.dropWhile isStripCh = pyStrip s ++ u :=
  rdrop_decomp isStripCh (s.dropWhile isStripCh)

lemma pyStrip_subset (s : Str) : ∀ c ∈ pyStrip s, c ∈ s := by
  intro c hc
  obtain ⟨u, hu⟩ := pyStrip_decomp s
  have h1 : c ∈ s.dropWhile isStripCh := by
    rw [hu]
    exact List.mem_append_left u hc
  exact List.dropWhile_subset _ h1

lemma chain'_pyStrip (s : Str) (h : s.Chain' noWsPair) :
    (pyStrip s).Chain' noWsPair := by
  have h1 : (s.dropWhile isStripCh).Chain' noWsPair :=
    h.suffix (List.dropWhile_suffix _)
  obtain ⟨u, hu⟩ := pyStrip_decomp s
  rw [hu] at h1
  exact (List.chain'_append.mp h1).1

lemma dropWhile_pyStrip (s : Str) :
    (pyStrip s).dropWhile isStripCh = pyStrip s := by
  cases hps : pyStrip s with
  | nil => rfl
  | cons c cs =>
    have hz := List.head?_dropWhile_not isStripCh s
    obtain ⟨u, hu⟩ := pyStrip_decomp s
    rw [hu, hps] at hz
    simp only [List.cons_append, List.head?_cons] at hz
    exact List.dropWhile_cons_of_neg (by simp [hz])

lemma rdrop_pyStrip (s : Str) :
    List.rdropWhile isStripCh (pyStrip s) = pyStrip s :=
  List.rdropWhile_idempotent _ _

lemma pyStrip_idem (s : Str) : pyStrip (pyStrip s) = pyStrip s := by
  show List.rdropWhile isStripCh ((pyStrip s).dropWhile isStripCh) = pyStrip s
  rw [dropWhile_pyStrip]
  exact rdrop_pyStrip s

/-- C9: the Text Normalizer `_clean` is idempotent: for every string s,
`_clean(_clean(s)) = _clean(s)`.  The NFKC step fixes every character it
can produce (a Unicode normal form is idempotent), the collapse step's
output has no tab and no adjacent space pair and any such string is a
collapse fixed point, and the strip step is idempotent and preserves
both shapes. -/
theorem clean_idempotent (s : Str) : clean (clean s) = clean s := by
  by_cases hs : s = []
  · rw [hs]
    rfl
  · have hcs : clean s = pyStrip (collapse (nfkc s)) := by
      unfold clean
      rw [if_neg hs]
    by_cases hr : clean s = []
    · rw [hr]
      rfl
    · have hfix : ∀ c ∈ clean s, nfkcChar c = [c] := by
        intro c hc
        rw [hcs] at hc
        have h2 : c ∈ collapse (nfkc s) := pyStrip_subset _ c hc
        rcases mem_collapse _ c h2 with h | ⟨h3, _⟩
        · rw [h]; decide
        · exact mem_nfkc_fixed s c h3
      have h1 : nfkc (clean s) = clean s := flatMap_fixed _ hfix
      have hnt : ∀ c ∈ clean s, c ≠ '\t' := by
        intro c hc
        rw [hcs] at hc
        rcases mem_collapse _ c (pyStrip_subset _ c hc) with h | ⟨_, h4⟩
        · rw [h]; decide
        · intro hct
          rw [hct] at h4
          exact absurd h4 (by decide)
      have hch : (clean s).Chain' noWsPair := by
        rw [hcs]
        exact chain'_pyStrip _ (chain'_collapse (nfkc s))
      have h2 : collapse (clean s) = clean s := collapse_fixed _ hnt hch
      have h3 : pyStrip (clean s) = clean s := by
        rw [hcs]
        exact pyStrip_idem _
      calc clean (clean s) = pyStrip (collapse (nfkc (clean s))) := by
            rw [clean]
            rw [if_neg hr]
        _ = clean s := by rw [h1, h2, h3]
